import Mathlib

/-
Shallow embedding of the `arxiv_papers` repository (src/arxiv_papers.py and
src/main.py) and proofs about its specification.

Python strings are modelled as lists of characters (`Str := List Char`);
Python builtin string operations are modelled by the `py*` functions below.
Timestamps coming from the provider are modelled as the strings produced by
their `strftime("%Y-%m-%d %H:%M")` renderings, since the program only ever
formats and copies them.  The remote arXiv client (`arxiv.Client.results`)
is modelled as an oracle mapping the query string built by the program to
the list of raw results it yields; `max_results=100` and the sort criterion
are fixed constants of the search object and are absorbed into the oracle.
-/

/-- Decidable equality for `Except` values, so that runs of the embedded
program can be evaluated on concrete inputs. -/
instance {ε α : Type _} [DecidableEq ε] [DecidableEq α] :
    DecidableEq (Except ε α) := fun a b =>
  match a, b with
  | .error e, .error f =>
    decidable_of_iff (e = f) ⟨fun h => h ▸ rfl, fun h => by cases h; rfl⟩
  | .error _, .ok _ => isFalse (fun h => by cases h)
  | .ok _, .error _ => isFalse (fun h => by cases h)
  | .ok x, .ok y =>
    decidable_of_iff (x = y) ⟨fun h => h ▸ rfl, fun h => by cases h; rfl⟩

namespace ArxivPapers

/-- A Python string: a finite sequence of characters (code points). -/
abbrev Str := List Char

/-- Python `s.lower()` (code-point-wise lowercasing). -/
def pyLower (s : Str) : Str := s.map Char.toLower

/-- Python `s.replace(old, new)` for a one-character pattern:
every occurrence of `old` is replaced by `new`. -/
def pyReplaceChar (old new : Char) (s : Str) : Str :=
  s.map fun c => if c = old then new else c

/-- Python `needle in haystack` for strings: `needle` occurs as a
contiguous substring of `haystack`. -/
def pySubstr (needle haystack : Str) : Bool :=
  decide (needle <:+: haystack)

/-- Python `s.strip()`: remove leading and trailing whitespace. -/
def pyStrip (s : Str) : Str :=
  ((s.dropWhile Char.isWhitespace).reverse.dropWhile Char.isWhitespace).reverse

/-- Python `sep.join(xs)`. -/
def pyJoin (sep : Str) (xs : List Str) : Str := sep.intercalate xs

/-- Python `s.split(sep)` for a one-character separator. -/
def pySplit (sep : Char) (s : Str) : List Str := s.splitOn sep

/-- A calendar date, as used by `datetime.date` (only the fields the
program touches). -/
structure Date where
  year : Nat
  month : Nat
  day : Nat
deriving DecidableEq, Repr

/-- Decimal digits of `n`, left-padded with zeros to width `w`
(as `strftime`'s zero-padded numeric directives produce). -/
def padDigits (w n : Nat) : Str :=
  List.replicate (w - (Nat.toDigits 10 n).length) '0' ++ Nat.toDigits 10 n

/-- Rendering `d.strftime("%Y%m%d")`: zero-padded year (width 4), month and day
(width 2), concatenated. -/
def Date.strftimeYmd (d : Date) : Str :=
  padDigits 4 d.year ++ padDigits 2 d.month ++ padDigits 2 d.day

/-- Comparison of `datetime.date` values: lexicographic on (year, month, day).
`Date.leB a b` models the Python expression `a <= b`. -/
def Date.leB (a b : Date) : Bool :=
  (a.year < b.year) ||
    (a.year = b.year &&
      ((a.month < b.month) || (a.month = b.month && a.day ≤ b.day)))

/-- Source `Person` (src/arxiv_papers.py, lines 8-27): a frozen dataclass, so
equality is field-wise value equality. -/
structure Person where
  given_name : Str
  family_name : Str
deriving DecidableEq, Repr

/-- Source `CategoryQuery` (src/arxiv_papers.py, lines 30-47). -/
structure CategoryQuery where
  category : Str
  authors : List Person
deriving DecidableEq, Repr

/-- Source `ArXivPaper` (src/arxiv_papers.py, lines 50-86): a frozen dataclass,
so `==` and `hash` — and hence membership in a Python `set` — use value
equality on ALL fields, which `DecidableEq` mirrors. -/
structure ArXivPaper where
  id : Str
  submitted : Str
  updated : Str
  authors_of_interest : Str
  authors : Str
  title : Str
  abstract : Str
  url : Str
deriving DecidableEq, Repr

/-- Source `Configuration` (src/arxiv_papers.py, lines 89-113).  The field `end`
is a Lean keyword and is rendered `end_`. -/
structure Configuration where
  category_queries : List CategoryQuery
  start : Date
  end_ : Date

/-- The fields of a raw `arxiv.Result` that `_parse_result` reads.
`published`/`updated` are modelled as the strings their
`strftime("%Y-%m-%d %H:%M")` renderings produce, and `authors` as the
list of the authors' display names (`a.name`). -/
structure Result where
  entry_id : Str
  published : Str
  updated : Str
  authors : List Str
  title : Str
  summary : Str
deriving DecidableEq, Repr

/-- The query string built inside `ArXiv.query_arxiv`
(src/arxiv_papers.py, lines 188-197):
`au = author.family_name.lower().replace(" ", "_")`, the date filter
`[{start:%Y%m%d0000} TO {end:%Y%m%d0000}]`, and the f-string
the final f-string interpolating cat, au and submitted_date. -/
def arxiv_query (category : Str) (author : Person) (start end_ : Date) : Str :=
  let au := pyReplaceChar ' ' '_' (pyLower author.family_name)
  let cat := category
  let submitted_date :=
    ("[").data ++ (start.strftimeYmd ++ ("0000").data) ++ (" TO ").data ++
      (end_.strftimeYmd ++ ("0000").data) ++ ("]").data
  ("cat:").data ++ cat ++ (".* AND au:").data ++ au ++
    (" AND submittedDate:").data ++ submitted_date

/-- The inner loop of `ArXiv._parse_result` (src/arxiv_papers.py,
lines 210-213): `for person in all_queried_persons: if
person.family_name.lower() in author.lower(): ...; break`.  Returns
whether the `break` (after appending) was reached. -/
def matchLoop (author : Str) : List Person → Bool
  | [] => false
  | person :: rest =>
    if pySubstr (pyLower person.family_name) (pyLower author) then true
    else matchLoop author rest

/-- The outer loop of `ArXiv._parse_result` (src/arxiv_papers.py,
lines 209-213): each author is appended (once) when the inner loop
reaches its `break`. -/
def interestLoop (persons : List Person) : List Str → List Str
  | [] => []
  | author :: rest =>
    if matchLoop author persons then author :: interestLoop persons rest
    else interestLoop persons rest

/-- Source `ArXiv._parse_result` (src/arxiv_papers.py, lines 204-224). -/
def parse_result (result : Result) (all_queried_persons : List Person) :
    ArXivPaper :=
  let authors := result.authors
  let authors_of_interest := interestLoop all_queried_persons authors
  { id := (pySplit '/' result.entry_id).getLastD []
    submitted := result.published
    updated := result.updated
    authors_of_interest := pyJoin (("|").data) authors_of_interest
    authors := pyJoin (("|").data) authors
    title := result.title
    abstract := result.summary
    url := result.entry_id }

/-- The parses produced by one `ArXiv.query_arxiv` call
(src/arxiv_papers.py, lines 161-202) under a non-failing remote oracle
`client`: build the query string, fetch the raw results, and parse each
with the full `all_authors` context.  `query_arxiv` itself returns the
set of these parses; since the orchestrator pours that set straight into
a list that is again turned into a set, only the underlying collection of
parses matters for the final result. -/
def query_arxiv_list (client : Str → List Result) (category : Str)
    (author : Person) (start end_ : Date) (all_authors : List Person) :
    List ArXivPaper :=
  (client (arxiv_query category author start end_)).map fun r =>
    parse_result r all_authors

/-- The set returned by `ArXiv.query_arxiv` (src/arxiv_papers.py,
line 202). -/
def query_arxiv (client : Str → List Result) (category : Str)
    (author : Person) (start end_ : Date) (all_authors : List Person) :
    Finset ArXivPaper :=
  (query_arxiv_list client category author start end_ all_authors).toFinset

/-- The flattened `papers` list accumulated by the two nested loops of
`arxiv_papers` (src/arxiv_papers.py, lines 135-142). -/
def papers_list (client : Str → List Result) (config : Configuration) :
    List ArXivPaper :=
  config.category_queries.flatMap fun category_query =>
    category_query.authors.flatMap fun author =>
      query_arxiv_list client category_query.category author config.start
        config.end_ category_query.authors

/-- Source `arxiv_papers` (src/arxiv_papers.py, lines 116-144): the two nested
loops extend a list of papers and the function returns `set(papers)`. -/
def arxiv_papers (client : Str → List Result) (config : Configuration) :
    Finset ArXivPaper :=
  (papers_list client config).toFinset

/-- The error message raised by `_parse_author` (src/main.py,
lines 73-77). -/
def authorErrMsg : Str :=
  ("The author name must be of the form family name, given_name. " ++
    "Neither the given name nor the family name may contain a comma.").data

/-- Source `_parse_author` (src/main.py, lines 70-80): split on commas; any
count of parts other than exactly two raises `ValueError`; otherwise
both parts are stripped, the first becoming the family name and the
second the given name. -/
def parse_author (author : Str) : Except Str Person :=
  let author_parts := pySplit ',' author
  match author_parts with
  | [part0, part1] =>
    .ok { given_name := pyStrip part1, family_name := pyStrip part0 }
  | _ => .error authorErrMsg

/-- The author list comprehension inside `_get_category_queries`
(src/main.py, lines 60-63), with the first raised `ValueError`
propagating. -/
def parse_authors : List Str → Except Str (List Person)
  | [] => .ok []
  | a :: rest =>
    match parse_author a with
    | .error e => .error e
    | .ok p =>
      match parse_authors rest with
      | .error e => .error e
      | .ok ps => .ok (p :: ps)

/-- Source `_get_category_queries` (src/main.py, lines 49-67): the configuration
data is modelled as the association list of (category, author strings)
entries of the `[arxiv]` table; any parse error propagates. -/
def get_category_queries :
    List (Str × List Str) → Except Str (List CategoryQuery)
  | [] => .ok []
  | (category, authorStrs) :: rest =>
    match parse_authors authorStrs with
    | .error e => .error e
    | .ok authors =>
      match get_category_queries rest with
      | .error e => .error e
      | .ok cqs => .ok ({ category := category, authors := authors } :: cqs)

/-- The observable side effects of one run of `query` (src/main.py):
a remote query being executed, and the output CSV file being written. -/
inductive Event where
  | remoteQuery : Str → Event
  | fileWrite : List (List Str) → Event
deriving DecidableEq, Repr

/-- The CSV header row written by `_save` (src/main.py, lines 85-96). -/
def header : List Str :=
  [("id").data, ("submitted").data, ("updated").data,
    ("authors_of_interest").data, ("authors").data, ("title").data,
    ("abstract").data, ("url").data]

/-- The CSV row `csv_writer.writerow(dataclasses.asdict(paper))` produces
for one paper, cells in `fieldnames` order (src/main.py, lines 85-98). -/
def toRow (p : ArXivPaper) : List Str :=
  [p.id, p.submitted, p.updated, p.authors_of_interest, p.authors,
    p.title, p.abstract, p.url]

/-- The ordering used by `sorted(papers)` in `query` (src/main.py,
line 43): Python's sort consults only `ArXivPaper.__lt__`
(src/arxiv_papers.py, lines 85-86), which compares the `id` strings, so
the list it produces is sorted with respect to `a.id ≤ b.id` (string
comparison by code point, i.e. the lexicographic order on `Str`). -/
def paperLeR (a b : ArXivPaper) : Prop := a.id ≤ b.id

instance : DecidableRel paperLeR := fun a b =>
  inferInstanceAs (Decidable (a.id ≤ b.id))

instance : IsTotal ArXivPaper paperLeR := ⟨fun a b => le_total a.id b.id⟩

instance : IsTrans ArXivPaper paperLeR :=
  ⟨fun _ _ _ h h' => le_trans h h'⟩

/-- Model of `sorted(papers)` (src/main.py, line 43): a stable sort of the paper
set's elements by `__lt__`, modelled by insertion sort over one list
representation of the set. -/
def sortPapers (papers : List ArXivPaper) : List ArXivPaper :=
  List.insertionSort paperLeR papers

/-- The rows `_save` writes (src/main.py, lines 83-98): the header row
followed by one row per paper, in the order of the given list. -/
def save_rows (papers : List ArXivPaper) : List (List Str) :=
  header :: papers.map toRow

/-- The (category, person, full category author list) triples the nested
loops of `arxiv_papers` iterate over (src/arxiv_papers.py,
lines 136-142), in order. -/
def pairs (cqs : List CategoryQuery) : List (Str × Person × List Person) :=
  cqs.flatMap fun cq => cq.authors.map fun a => (cq.category, a, cq.authors)

/-- The query loop of `arxiv_papers` under a fallible remote client:
each pair builds its query, executes it (recording the event), and either
propagates the raised error or accumulates the parses.  A raised error
stops the loop at once (Python exception semantics). -/
def run_pairs (client : Str → Except Str (List Result))
    (start end_ : Date) :
    List (Str × Person × List Person) →
      Except Str (List ArXivPaper) × List Event
  | [] => (.ok [], [])
  | (category, author, all_authors) :: rest =>
    let q := arxiv_query category author start end_
    match client q with
    | .error e => (.error e, [.remoteQuery q])
    | .ok results =>
      let papers := results.map fun r => parse_result r all_authors
      match run_pairs client start end_ rest with
      | (.error e, evs) => (.error e, .remoteQuery q :: evs)
      | (.ok more, evs) => (.ok (papers ++ more), .remoteQuery q :: evs)

/-- The body of `query` (src/main.py, lines 32-46) with its observable
events: load and parse the configuration, run all queries, and only then
sort the resulting set and write the output file.  Any raised error
propagates immediately (the `except` clause merely reports it and exits
non-zero), so on error no later step runs.  The set `set(papers)` is
iterated for sorting via the duplicate-free list `List.dedup` of the
accumulated parses. -/
def query_run (client : Str → Except Str (List Result))
    (config_data : List (Str × List Str)) (start end_ : Date) :
    Except Str Unit × List Event :=
  match get_category_queries config_data with
  | .error e => (.error e, [])
  | .ok cqs =>
    match run_pairs client start end_ (pairs cqs) with
    | (.error e, evs) => (.error e, evs)
    | (.ok papers, evs) =>
      (.ok (), evs ++ [.fileWrite (save_rows (sortPapers papers.dedup))])

/-- Modelled from the spec: the claim C4 template's author component,
"the person's family name lowercased with internal spaces replaced by
underscores" — spaces in the interior are replaced, while leading and
trailing runs of spaces are not internal and are kept.  This definition
follows the claim's words for a refinement comparison with the
source-derived `arxiv_query`; it is not part of the program. -/
def internalSpacesToUnderscores (s : Str) : Str :=
  let lead := s.takeWhile (· == ' ')
  let rest := s.dropWhile (· == ' ')
  let trail := rest.reverse.takeWhile (· == ' ')
  let core := (rest.reverse.dropWhile (· == ' ')).reverse
  lead ++ core.map (fun c => if c = ' ' then '_' else c) ++ trail

/-- Modelled from the spec: the exact query template claim C4 asserts,
with the author component per `internalSpacesToUnderscores`. -/
def claimed_query (category : Str) (author : Person) (start end_ : Date) :
    Str :=
  ("cat:").data ++ category ++ (".* AND au:").data ++
    internalSpacesToUnderscores (pyLower author.family_name) ++
    (" AND submittedDate:[").data ++ start.strftimeYmd ++
    ("0000 TO ").data ++ end_.strftimeYmd ++ ("0000]").data

/-! ## Concrete test fixtures -/

/-- A concrete query window. -/
def dStart : Date := ⟨2025, 1, 28⟩

/-- A concrete query window end. -/
def dEnd : Date := ⟨2025, 3, 20⟩

/-- A concrete queried person. -/
def smith : Person := ⟨("Jane").data, ("Smith").data⟩

/-- A second concrete queried person. -/
def doe : Person := ⟨("John").data, ("Doe").data⟩

/-- A concrete raw provider record co-authored by both queried persons. -/
def rawR : Result :=
  { entry_id := ("http://arxiv.org/abs/2503.02829v1").data
    published := ("2025-03-04 12:00").data
    updated := ("2025-03-05 12:00").data
    authors := [("Jane Smith").data, ("John Doe").data]
    title := ("A Paper").data
    summary := ("An abstract").data }

/-- A remote oracle on which the same record `rawR` is reached through
two different category queries (whose author lists differ). -/
def clientC1 : Str → List Result := fun q =>
  if q = arxiv_query (("astro-ph").data) smith dStart dEnd then [rawR]
  else if q = arxiv_query (("math").data) doe dStart dEnd then [rawR]
  else []

/-- Two category queries with different author lists. -/
def configC1 : Configuration :=
  ⟨[⟨("astro-ph").data, [smith]⟩, ⟨("math").data, [doe]⟩], dStart, dEnd⟩

/-- A remote oracle on which the same record `rawR` is reached through
two different persons of the same category query. -/
def clientC2 : Str → List Result := fun q =>
  if q = arxiv_query (("astro-ph").data) smith dStart dEnd then [rawR]
  else if q = arxiv_query (("astro-ph").data) doe dStart dEnd then [rawR]
  else []

/-- One category query listing both persons. -/
def configC2 : Configuration :=
  ⟨[⟨("astro-ph").data, [smith, doe]⟩], dStart, dEnd⟩

/-- A fallible remote oracle that answers one specific query and returns
the empty result list for every other. -/
def clientRun : Str → Except Str (List Result) := fun q =>
  if q = arxiv_query (("astro-ph").data) smith dStart dEnd then .ok [rawR]
  else .ok []

/-- A remote oracle whose every query raises. -/
def clientFail : Str → Except Str (List Result) := fun _ =>
  .error (("remote query failed").data)

/-! ## Helper lemmas -/

/-- The query string laid out as the claim's template, with the author
component the family name lowercased and each space replaced by an
underscore. -/
theorem arxiv_query_eq (category : Str) (author : Person) (start end_ : Date) :
    arxiv_query category author start end_ =
      ("cat:").data ++ category ++ (".* AND au:").data ++
        pyReplaceChar ' ' '_' (pyLower author.family_name) ++
        (" AND submittedDate:[").data ++ start.strftimeYmd ++
        ("0000 TO ").data ++ end_.strftimeYmd ++ ("0000]").data := by
  have fuse1 : ∀ x : Str,
      (" AND submittedDate:").data ++ (("[").data ++ x) =
        (" AND submittedDate:[").data ++ x := by
    intro x
    rw [← List.append_assoc,
      (by decide : (" AND submittedDate:").data ++ ("[").data =
        (" AND submittedDate:[").data)]
  have fuse2 : ∀ x : Str,
      ("0000").data ++ ((" TO ").data ++ x) = ("0000 TO ").data ++ x := by
    intro x
    rw [← List.append_assoc,
      (by decide : ("0000").data ++ (" TO ").data = ("0000 TO ").data)]
  have fuse3 : ("0000").data ++ ("]").data = ("0000]").data := by decide
  simp only [arxiv_query, List.append_assoc, fuse1, fuse2, fuse3]

/-- The inner loop of `_parse_result` decides: does some queried person's
lowercased family name occur as a substring of the lowercased author
name? -/
theorem matchLoop_eq (author : Str) (persons : List Person) :
    matchLoop author persons =
      decide (∃ p ∈ persons, pyLower p.family_name <:+: pyLower author) := by
  induction persons with
  | nil => simp [matchLoop]
  | cons p ps ih =>
    simp only [matchLoop, pySubstr, ih]
    by_cases h : pyLower p.family_name <:+: pyLower author <;>
      simp [h, List.exists_mem_cons_iff]

/-- The author-of-interest loop of `_parse_result` is the filter of the
author list by the substring test. -/
theorem interestLoop_filter (persons : List Person) (authors : List Str) :
    interestLoop persons authors =
      authors.filter fun a =>
        decide (∃ p ∈ persons, pyLower p.family_name <:+: pyLower a) := by
  induction authors with
  | nil => rfl
  | cons a rest ih =>
    simp only [interestLoop, matchLoop_eq, ih, List.filter_cons]

/-- Every event recorded by the query loop is a remote query (the loop
never writes the output file). -/
theorem run_pairs_events (client : Str → Except Str (List Result))
    (start end_ : Date) :
    ∀ (ps : List (Str × Person × List Person)) (ev : Event),
      ev ∈ (run_pairs client start end_ ps).2 → ∃ q, ev = .remoteQuery q := by
  intro ps
  induction ps with
  | nil => intro ev h; simp [run_pairs] at h
  | cons pr rest ih =>
    intro ev h
    obtain ⟨category, author, all_authors⟩ := pr
    simp only [run_pairs] at h
    cases hc : client (arxiv_query category author start end_) with
    | error e =>
      rw [hc] at h
      simp at h
      exact ⟨_, h⟩
    | ok results =>
      rw [hc] at h
      cases hrp : run_pairs client start end_ rest with
      | mk r evs =>
        cases r with
        | error e =>
          rw [hrp] at h
          simp at h
          rcases h with h | h
          · exact ⟨_, h⟩
          · exact ih ev (by rw [hrp]; exact h)
        | ok more =>
          rw [hrp] at h
          simp at h
          rcases h with h | h
          · exact ⟨_, h⟩
          · exact ih ev (by rw [hrp]; exact h)

/-- If a run writes the output file, the run succeeded, the write is its
last event, and what is written is the header plus the sorted rows of
some complete paper list. -/
theorem query_run_fileWrite {client : Str → Except Str (List Result)}
    {config_data : List (Str × List Str)} {start end_ : Date}
    {rows : List (List Str)}
    (h : Event.fileWrite rows ∈ (query_run client config_data start end_).2) :
    (query_run client config_data start end_).1 = .ok () ∧
    (query_run client config_data start end_).2.getLast? =
      some (.fileWrite rows) ∧
    ∃ papers, rows = save_rows (sortPapers papers) := by
  unfold query_run at *
  cases hg : get_category_queries config_data with
  | error e => rw [hg] at h; simp at h
  | ok cqs =>
    rw [hg] at h
    dsimp only at h ⊢
    cases hrp : run_pairs client start end_ (pairs cqs) with
    | mk r evs =>
      rw [hrp] at h
      cases r with
      | error e =>
        dsimp only at h
        obtain ⟨q, hq⟩ := run_pairs_events client start end_ (pairs cqs)
          (Event.fileWrite rows) (by rw [hrp]; exact h)
        cases hq
      | ok papers =>
        dsimp only at h ⊢
        simp only [List.mem_append, List.mem_singleton] at h
        rcases h with h | h
        · obtain ⟨q, hq⟩ := run_pairs_events client start end_ (pairs cqs)
            (Event.fileWrite rows) (by rw [hrp]; exact h)
          cases hq
        · injection h with h2
          subst h2
          exact ⟨rfl, by simp, papers.dedup, rfl⟩

/-- The head of a `dropWhile p` result never satisfies `p`. -/
theorem head?_dropWhile_not (p : Char → Bool) :
    ∀ (l : Str) (c : Char), ((l.dropWhile p).head? = some c) → p c = false := by
  intro l
  induction l with
  | nil => intro c h; simp [List.dropWhile] at h
  | cons a rest ih =>
    intro c h
    by_cases ha : p a
    · rw [List.dropWhile_cons_of_pos ha] at h
      exact ih c h
    · rw [List.dropWhile_cons_of_neg ha] at h
      simp at h
      rw [← h]
      exact Bool.eq_false_iff.mpr ha

/-- A stripped string never ends in whitespace. -/
theorem pyStrip_getLast (s : Str) (c : Char) :
    (pyStrip s).getLast? = some c → c.isWhitespace = false := by
  intro h
  unfold pyStrip at h
  rw [List.getLast?_reverse] at h
  exact head?_dropWhile_not _ _ _ h

/-- A stripped string never starts with whitespace. -/
theorem pyStrip_head (s : Str) (c : Char) :
    (pyStrip s).head? = some c → c.isWhitespace = false := by
  intro h
  unfold pyStrip at h
  rw [List.head?_reverse] at h
  set Y := s.dropWhile Char.isWhitespace with hY
  obtain ⟨t, ht⟩ := List.dropWhile_suffix (l := Y.reverse) Char.isWhitespace
  have hne : Y.reverse.dropWhile Char.isWhitespace ≠ [] := by
    intro hnil
    rw [hnil] at h
    simp at h
  have : (t ++ Y.reverse.dropWhile Char.isWhitespace).getLast? =
      (Y.reverse.dropWhile Char.isWhitespace).getLast? := by
    rw [List.getLast?_append]
    cases hgl : (Y.reverse.dropWhile Char.isWhitespace).getLast? with
    | none => exact absurd (List.getLast?_eq_none_iff.mp hgl) hne
    | some d => simp
  rw [ht] at this
  rw [← this] at h
  rw [List.getLast?_reverse] at h
  exact head?_dropWhile_not _ _ _ h

/-- Behaviour of `_parse_author` on a string splitting into exactly two parts. -/
theorem parse_author_two (s f g : Str) (h : pySplit ',' s = [f, g]) :
    parse_author s = .ok ⟨pyStrip g, pyStrip f⟩ := by
  unfold parse_author
  rw [h]

/-- Behaviour of `_parse_author`: it raises whenever the comma-split does not have exactly
two parts. -/
theorem parse_author_err (s : Str) (h : (pySplit ',' s).length ≠ 2) :
    parse_author s = .error authorErrMsg := by
  unfold parse_author
  rcases hs : pySplit ',' s with _ | ⟨x, _ | ⟨y, _ | ⟨z, rest⟩⟩⟩
  · rfl
  · rfl
  · exact absurd (by rw [hs]; rfl) h
  · rfl

/-- A configuration-parsing error aborts the run before anything else
happens: no remote query is executed and nothing is written. -/
theorem query_run_config_error (client : Str → Except Str (List Result))
    (config_data : List (Str × List Str)) (start end_ : Date) (e : Str)
    (h : get_category_queries config_data = .error e) :
    query_run client config_data start end_ = (.error e, []) := by
  simp [query_run, h]

/-- The ids of a sorted paper list are ascending in the string order. -/
theorem save_rows_ids_sorted (papers : List ArXivPaper) :
    List.Sorted (· ≤ ·) ((sortPapers papers).map (fun p => p.id)) :=
  List.Pairwise.map _ (fun _ _ hab => hab)
    (List.sorted_insertionSort paperLeR papers)

/-! ## Claim theorems -/

/-- C1 (counterexample): deduplication is NOT by `id` alone: on a run in
which the same raw record is reached via two category queries whose
author lists differ, the returned set contains two distinct papers with
equal `id` (they differ in `authors_of_interest`). -/
theorem C1_dedup_by_id_false :
    parse_result rawR [smith] ∈ arxiv_papers clientC1 configC1 ∧
    parse_result rawR [doe] ∈ arxiv_papers clientC1 configC1 ∧
    (parse_result rawR [smith]).id = (parse_result rawR [doe]).id ∧
    parse_result rawR [smith] ≠ parse_result rawR [doe] := by decide

/-- C1 (amended): deduplication of the returned set is by full value
equality of all eight fields, not by `id` alone. -/
theorem C1_dedup_by_value (client : Str → List Result)
    (config : Configuration) (p q : ArXivPaper)
    (hp : p ∈ arxiv_papers client config)
    (hq : q ∈ arxiv_papers client config) :
    p = q ↔ (p.id = q.id ∧ p.submitted = q.submitted ∧
      p.updated = q.updated ∧
      p.authors_of_interest = q.authors_of_interest ∧
      p.authors = q.authors ∧ p.title = q.title ∧
      p.abstract = q.abstract ∧ p.url = q.url) := by
  constructor
  · rintro rfl
    exact ⟨rfl, rfl, rfl, rfl, rfl, rfl, rfl, rfl⟩
  · obtain ⟨i, s, u, aoi, au, t, ab, ur⟩ := p
    obtain ⟨i2, s2, u2, aoi2, au2, t2, ab2, ur2⟩ := q
    rintro ⟨rfl, rfl, rfl, rfl, rfl, rfl, rfl, rfl⟩
    rfl

/-- Witness for C1_dedup_by_value at a concrete run. -/
theorem C1_dedup_by_value_witness :
    parse_result rawR [smith] = parse_result rawR [doe] ↔
      ((parse_result rawR [smith]).id = (parse_result rawR [doe]).id ∧
        (parse_result rawR [smith]).submitted = (parse_result rawR [doe]).submitted ∧
        (parse_result rawR [smith]).updated = (parse_result rawR [doe]).updated ∧
        (parse_result rawR [smith]).authors_of_interest =
          (parse_result rawR [doe]).authors_of_interest ∧
        (parse_result rawR [smith]).authors = (parse_result rawR [doe]).authors ∧
        (parse_result rawR [smith]).title = (parse_result rawR [doe]).title ∧
        (parse_result rawR [smith]).abstract = (parse_result rawR [doe]).abstract ∧
        (parse_result rawR [smith]).url = (parse_result rawR [doe]).url) :=
  C1_dedup_by_value clientC1 configC1 _ _ (by decide) (by decide)

/-- C2: within one category query, a record reached through two different
queried persons is parsed to the same Paper value by both calls (the full
category author list is the matching context for both), and that paper is
in the final set exactly once. -/
theorem C2_same_record_once (client : Str → List Result) (category : Str)
    (authors : List Person) (start end_ : Date) (p1 p2 : Person) (r : Result)
    (h1 : p1 ∈ authors) (_h2 : p2 ∈ authors)
    (hr1 : r ∈ client (arxiv_query category p1 start end_))
    (hr2 : r ∈ client (arxiv_query category p2 start end_)) :
    parse_result r authors ∈
      query_arxiv_list client category p1 start end_ authors ∧
    parse_result r authors ∈
      query_arxiv_list client category p2 start end_ authors ∧
    parse_result r authors ∈
      arxiv_papers client ⟨[⟨category, authors⟩], start, end_⟩ ∧
    ((arxiv_papers client ⟨[⟨category, authors⟩], start, end_⟩).filter
      (· = parse_result r authors)).card = 1 := by
  have m1 : parse_result r authors ∈
      query_arxiv_list client category p1 start end_ authors :=
    List.mem_map_of_mem _ hr1
  have m2 : parse_result r authors ∈
      query_arxiv_list client category p2 start end_ authors :=
    List.mem_map_of_mem _ hr2
  have mset : parse_result r authors ∈
      arxiv_papers client ⟨[⟨category, authors⟩], start, end_⟩ := by
    simp only [arxiv_papers, papers_list, List.mem_toFinset, List.mem_flatMap]
    exact ⟨⟨category, authors⟩, by simp, p1, h1, m1⟩
  refine ⟨m1, m2, mset, ?_⟩
  rw [Finset.filter_eq', if_pos mset]
  exact Finset.card_singleton _

/-- Witness for C2_same_record_once at a concrete run. -/
theorem C2_same_record_once_witness :
    parse_result rawR [smith, doe] ∈
      query_arxiv_list clientC2 (("astro-ph").data) smith dStart dEnd
        [smith, doe] ∧
    parse_result rawR [smith, doe] ∈
      query_arxiv_list clientC2 (("astro-ph").data) doe dStart dEnd
        [smith, doe] ∧
    parse_result rawR [smith, doe] ∈ arxiv_papers clientC2 configC2 ∧
    ((arxiv_papers clientC2 configC2).filter
      (· = parse_result rawR [smith, doe])).card = 1 :=
  C2_same_record_once clientC2 (("astro-ph").data) [smith, doe] dStart dEnd
    smith doe rawR (by decide) (by decide) (by decide) (by decide)

/-- C3: the authors-of-interest list is exactly the filter of the author
list by "some queried person's lowercased family name is a substring of
the lowercased author name"; as a filter it keeps each matching author
once, in `authors` order (it is a sublist).  The concrete examples:
family name Smith matches author "Jane A. SMITH-Jones"; family name
Smithson does not match "J. Smith". -/
theorem C3_authors_of_interest :
    (∀ (persons : List Person) (authors : List Str),
      interestLoop persons authors =
        authors.filter (fun a =>
          decide (∃ p ∈ persons, pyLower p.family_name <:+: pyLower a)) ∧
      (interestLoop persons authors).Sublist authors) ∧
    interestLoop [smith] [("Jane A. SMITH-Jones").data] =
      [("Jane A. SMITH-Jones").data] ∧
    interestLoop [⟨("Jo").data, ("Smithson").data⟩] [("J. Smith").data] =
      [] := by
  refine ⟨fun persons authors =>
    ⟨interestLoop_filter persons authors, ?_⟩, by decide, by decide⟩
  rw [interestLoop_filter]
  exact List.filter_sublist _

/-- C4 (counterexample): for a family name with a leading space, the
query built by the code differs from the claim's template, which
replaces only internal spaces by underscores. -/
theorem C4_internal_spaces_false :
    arxiv_query (("astro-ph").data) ⟨("Jane").data, (" smith").data⟩
        dStart dEnd ≠
      claimed_query (("astro-ph").data) ⟨("Jane").data, (" smith").data⟩
        dStart dEnd := by decide

/-- C4 (amended): the query builder produces exactly the claimed
template, with the author component the family name lowercased and EVERY
space (leading, internal or trailing) replaced by an underscore; it is a
total function.  The second conjunct checks the spec's own end-to-end
example string. -/
theorem C4_query_format :
    (∀ (category : Str) (author : Person) (start end_ : Date),
      arxiv_query category author start end_ =
        ("cat:").data ++ category ++ (".* AND au:").data ++
          (pyLower author.family_name).map
            (fun c => if c = ' ' then '_' else c) ++
          (" AND submittedDate:[").data ++ start.strftimeYmd ++
          ("0000 TO ").data ++ end_.strftimeYmd ++ ("0000]").data) ∧
    arxiv_query (("astro-ph").data) smith dStart dEnd =
      ("cat:astro-ph.* AND au:smith AND submittedDate:" ++
        "[202501280000 TO 202503200000]").data :=
  ⟨fun category author start end_ =>
    arxiv_query_eq category author start end_, by decide⟩

/-- C5: an author string splitting into exactly two comma-separated parts
parses into a Person (family name from the first part, given name from
the second); any other number of parts raises the configuration error;
and a configuration error aborts the run before any query is executed. -/
theorem C5_author_parsing :
    parse_author (("Smith, Jane").data) =
      .ok ⟨("Jane").data, ("Smith").data⟩ ∧
    parse_author (("Smith Jane").data) = .error authorErrMsg ∧
    parse_author (("Smith, Jane, Extra").data) = .error authorErrMsg ∧
    (∀ (s f g : Str), pySplit ',' s = [f, g] →
      parse_author s = .ok ⟨pyStrip g, pyStrip f⟩) ∧
    (∀ s : Str, (pySplit ',' s).length ≠ 2 →
      parse_author s = .error authorErrMsg) ∧
    (∀ (client : Str → Except Str (List Result))
        (config_data : List (Str × List Str)) (start end_ : Date) (e : Str),
      get_category_queries config_data = .error e →
      query_run client config_data start end_ = (.error e, [])) :=
  ⟨by decide, by decide, by decide, parse_author_two, parse_author_err,
    query_run_config_error⟩

/-- Witness for C5_author_parsing at concrete inputs. -/
theorem C5_author_parsing_witness :
    parse_author (("Doe,John").data) = .ok ⟨("John").data, ("Doe").data⟩ ∧
    parse_author (("NoComma").data) = .error authorErrMsg ∧
    query_run clientFail [((("astro-ph").data), [("NoComma").data])]
      dStart dEnd = (.error authorErrMsg, []) :=
  ⟨C5_author_parsing.2.2.2.1 (("Doe,John").data) (("Doe").data)
      (("John").data) (by decide),
    C5_author_parsing.2.2.2.2.1 (("NoComma").data) (by decide),
    C5_author_parsing.2.2.2.2.2 clientFail
      [((("astro-ph").data), [("NoComma").data])] dStart dEnd authorErrMsg
      (by decide)⟩

/-- C6: a run that raises during configuration loading, remote querying
or parsing writes nothing; the output file is written only on a fully
successful run, as the final action. -/
theorem C6_no_partial_output (client : Str → Except Str (List Result))
    (config_data : List (Str × List Str)) (start end_ : Date) :
    (∀ e : Str, (query_run client config_data start end_).1 = .error e →
      ∀ rows, Event.fileWrite rows ∉
        (query_run client config_data start end_).2) ∧
    (∀ rows, Event.fileWrite rows ∈
        (query_run client config_data start end_).2 →
      (query_run client config_data start end_).1 = .ok () ∧
      (query_run client config_data start end_).2.getLast? =
        some (.fileWrite rows)) := by
  constructor
  · intro e he rows hmem
    have := (query_run_fileWrite hmem).1
    rw [he] at this
    cases this
  · intro rows hmem
    exact ⟨(query_run_fileWrite hmem).1, (query_run_fileWrite hmem).2.1⟩

/-- Witness for C6_no_partial_output on a run whose remote query
raises. -/
theorem C6_no_partial_output_witness :
    Event.fileWrite (save_rows []) ∉
      (query_run clientFail [((("astro-ph").data), [("Smith, Jane").data])]
        dStart dEnd).2 :=
  (C6_no_partial_output clientFail
      [((("astro-ph").data), [("Smith, Jane").data])] dStart dEnd).1
    (("remote query failed").data) (by decide) (save_rows [])

/-- C7: whatever run writes the output file writes the header row with
the columns in order id, submitted, updated, authors_of_interest,
authors, title, abstract, url, followed by the paper rows in ascending
order of their `id` cell (string comparison; the sort consults only the
`id` field). -/
theorem C7_output_sorted (client : Str → Except Str (List Result))
    (config_data : List (Str × List Str)) (start end_ : Date)
    (rows : List (List Str))
    (h : Event.fileWrite rows ∈
      (query_run client config_data start end_).2) :
    rows.head? = some header ∧
    List.Sorted (· ≤ ·) (rows.tail.map fun row => row.headD []) := by
  obtain ⟨-, -, papers, hrows⟩ := query_run_fileWrite h
  subst hrows
  refine ⟨rfl, ?_⟩
  have hmm : ((sortPapers papers).map toRow).map (fun row => row.headD []) =
      (sortPapers papers).map (fun p => p.id) := by
    rw [List.map_map]
    rfl
  simpa [save_rows, hmm] using save_rows_ids_sorted papers

/-- Witness for C7_output_sorted on a concrete successful run. -/
theorem C7_output_sorted_witness :
    (save_rows (sortPapers [parse_result rawR [smith]])).head? =
      some header ∧
    List.Sorted (· ≤ ·)
      ((save_rows (sortPapers [parse_result rawR [smith]])).tail.map
        fun row => row.headD []) :=
  C7_output_sorted clientRun [((("astro-ph").data), [("Smith, Jane").data])]
    dStart dEnd (save_rows (sortPapers [parse_result rawR [smith]]))
    (by decide)

/-- C8: when the end date is on or before the start date, the query
builder still emits the same template with the given dates in the given
positions — nothing branches on the empty range. -/
theorem C8_empty_range (category : Str) (author : Person)
    (start end_ : Date) (_h : Date.leB end_ start = true) :
    arxiv_query category author start end_ =
      ("cat:").data ++ category ++ (".* AND au:").data ++
        pyReplaceChar ' ' '_' (pyLower author.family_name) ++
        (" AND submittedDate:[").data ++ start.strftimeYmd ++
        ("0000 TO ").data ++ end_.strftimeYmd ++ ("0000]").data :=
  arxiv_query_eq category author start end_

/-- Witness for C8_empty_range: with the window reversed the dates still
appear in the emitted positions. -/
theorem C8_empty_range_witness :
    Date.leB dStart dEnd = true ∧
    arxiv_query (("astro-ph").data) smith dEnd dStart =
      ("cat:astro-ph.* AND au:smith AND submittedDate:" ++
        "[202503200000 TO 202501280000]").data :=
  ⟨by decide, C8_empty_range (("astro-ph").data) smith dEnd dStart
    (by decide)⟩

/-- C9: with no category queries the orchestrator returns the empty set,
the query loop runs zero iterations, and no remote query event is ever
emitted. -/
theorem C9_empty_config (client : Str → List Result)
    (clientE : Str → Except Str (List Result)) (start end_ : Date) :
    arxiv_papers client ⟨[], start, end_⟩ = ∅ ∧
    run_pairs clientE start end_ (pairs []) = (.ok [], []) ∧
    ∀ q, Event.remoteQuery q ∉ (query_run clientE [] start end_).2 := by
  refine ⟨?_, rfl, ?_⟩
  · simp [arxiv_papers, papers_list]
  · intro q h
    simp [query_run, get_category_queries, run_pairs, pairs] at h

/-- Witness for C9_empty_config at concrete oracles and dates. -/
theorem C9_empty_config_witness :
    arxiv_papers (fun _ => []) ⟨[], dStart, dEnd⟩ = ∅ ∧
    Event.remoteQuery (("cat:astro-ph").data) ∉
      (query_run clientFail [] dStart dEnd).2 :=
  ⟨(C9_empty_config (fun _ => []) clientFail dStart dEnd).1,
    (C9_empty_config (fun _ => []) clientFail dStart dEnd).2.2 _⟩

/-- C10: an author string with exactly one comma has both parts stripped
of leading and trailing whitespace, so whitespace around the comma never
reaches the resulting Person; e.g. "  Smith ,  Jane  " parses to the
same Person as "Smith, Jane". -/
theorem C10_whitespace_stripped (f g : Str) (hf : ',' ∉ f) (hg : ',' ∉ g) :
    parse_author (f ++ ',' :: g) = .ok ⟨pyStrip g, pyStrip f⟩ ∧
    (∀ c, (pyStrip f).head? = some c → c.isWhitespace = false) ∧
    (∀ c, (pyStrip f).getLast? = some c → c.isWhitespace = false) ∧
    (∀ c, (pyStrip g).head? = some c → c.isWhitespace = false) ∧
    (∀ c, (pyStrip g).getLast? = some c → c.isWhitespace = false) ∧
    parse_author (("  Smith ,  Jane  ").data) =
      parse_author (("Smith, Jane").data) := by
  have hsplit : pySplit ',' (f ++ ',' :: g) = [f, g] := by
    have hx : ∀ l ∈ [f, g], ',' ∉ l := by
      intro l hl
      simp at hl
      rcases hl with rfl | rfl
      · exact hf
      · exact hg
    have := List.splitOn_intercalate [f, g] ',' hx (by simp)
    simpa [pySplit, List.intercalate] using this
  exact ⟨parse_author_two _ _ _ hsplit, pyStrip_head f, pyStrip_getLast f,
    pyStrip_head g, pyStrip_getLast g, by decide⟩

/-- Witness for C10_whitespace_stripped at the concrete padded input. -/
theorem C10_whitespace_stripped_witness :
    parse_author ((("  Smith ").data) ++ ',' :: (("  Jane  ").data)) =
      .ok ⟨("Jane").data, ("Smith").data⟩ :=
  (C10_whitespace_stripped (("  Smith ").data) (("  Jane  ").data)
    (by decide) (by decide)).1

end ArxivPapers
